import Mathlib

/-!
Verification of the symbol-resolution core of `backend/app.py`.

The file embeds the resolver `get_stock_symbol` and the input guard of the
`/predict` route as Lean functions.  The external market-data service
(`yfinance`) is modelled as an oracle `MarketService : String → HistoryResult`
describing, for each queried symbol, whether the one-day history call returns
an empty frame, a non-empty frame, or raises.  Python string normalization
(`str.strip` followed by `str.upper`) is modelled character-exactly on the
underlying character lists.
-/

set_option maxRecDepth 100000

namespace FinanceBackend

/-! ### Python string primitives -/

/-- The set of code points stripped by Python `str.strip()` (Unicode
whitespace as used by CPython's `Py_UNICODE_ISSPACE`). -/
def PySpaceProp (n : Nat) : Prop :=
  n = 32 ∨ n = 9 ∨ n = 10 ∨ n = 13 ∨ n = 11 ∨ n = 12 ∨
  n = 28 ∨ n = 29 ∨ n = 30 ∨ n = 31 ∨ n = 133 ∨ n = 160 ∨
  n = 5760 ∨ (8192 ≤ n ∧ n ≤ 8202) ∨ n = 8232 ∨ n = 8233 ∨
  n = 8239 ∨ n = 8287 ∨ n = 12288

instance : DecidablePred PySpaceProp := fun n => by
  unfold PySpaceProp; infer_instance

/-- Whether `str.strip()` removes the character `c`. -/
def isPySpace (c : Char) : Bool := decide (PySpaceProp c.toNat)

/-- Remove leading and trailing characters satisfying `p`
(the semantics of Python `str.strip()` for `p = isPySpace`). -/
def stripWith (p : Char → Bool) (l : List Char) : List Char :=
  ((l.dropWhile p).reverse.dropWhile p).reverse

/-- Python `s.strip()`. -/
def pyStrip (s : String) : String := String.mk (stripWith isPySpace s.data)

/-- Python `s.upper()` (ASCII letters; other characters are unchanged,
matching `Char.toUpper`). -/
def pyUpper (s : String) : String := String.mk (s.data.map Char.toUpper)

/-- `name_or_symbol.strip().upper()` — the normalization performed at the top
of `get_stock_symbol`. -/
def normalize (s : String) : String := pyUpper (pyStrip s)

/-! ### The market-data oracle -/

/-- Outcome of `yf.Ticker(candidate).history(period="1d")`: either a history
frame whose emptiness is the `empty` flag, or a raised exception. -/
inductive HistoryResult where
  | history (empty : Bool)
  | exn
deriving DecidableEq

/-- The external market-data service, seen only through the one-day history
query the resolver performs. -/
def MarketService : Type := String → HistoryResult

/-! ### The resolver -/

/-- The inline `common_mappings` dictionary of `get_stock_symbol`, in source
order. -/
def common_mappings : List (String × String) :=
  [("APPLE", "AAPL"), ("GOOGLE", "GOOGL"), ("MICROSOFT", "MSFT"),
   ("AMAZON", "AMZN"), ("TESLA", "TSLA"), ("META", "META"),
   ("NETFLIX", "NFLX"), ("NVIDIA", "NVDA"), ("ADOBE", "ADBE"),
   ("SALESFORCE", "CRM")]

/-- A single-quote character, used in the error message text. -/
def squote : String := String.singleton (Char.ofNat 39)

/-- Text before the candidate in the `ValueError` message. -/
def errPre : String := "Could not find a ticker symbol for " ++ squote

/-- Text after the candidate in the `ValueError` message. -/
def errSuf : String :=
  squote ++ ". Please try a valid stock symbol like AAPL, GOOGL, etc."

/-- The message of the `ValueError` raised on total resolution failure. -/
def resolution_error_message (candidate : String) : String :=
  errPre ++ candidate ++ errSuf

/-- Result of `get_stock_symbol`: a returned symbol, or the raised
`ValueError` carrying its message. -/
inductive Resolution where
  | ok (symbol : String)
  | err (msg : String)
deriving DecidableEq

/-- `get_stock_symbol` from `backend/app.py`: normalize the input, try the
one-day history query (an empty frame or an exception both fall through),
then the static mapping, and otherwise raise. -/
def get_stock_symbol (svc : MarketService) (name_or_symbol : String) :
    Resolution :=
  match svc (normalize name_or_symbol) with
  | .history false => .ok (normalize name_or_symbol)
  | .history true | .exn =>
    match common_mappings.lookup (normalize name_or_symbol) with
    | some mapped => .ok mapped
    | none => .err (resolution_error_message (normalize name_or_symbol))

/-- `get_stock_symbol` instrumented with the list of symbols sent to the
market-data service.  The only outbound call is the history query on the
normalized candidate, issued exactly once at the top of the `try` block,
whatever branch is taken afterwards. -/
def get_stock_symbolT (svc : MarketService) (name_or_symbol : String) :
    Resolution × List String :=
  match svc (normalize name_or_symbol) with
  | .history false =>
      (.ok (normalize name_or_symbol), [normalize name_or_symbol])
  | .history true | .exn =>
    match common_mappings.lookup (normalize name_or_symbol) with
    | some mapped => (.ok mapped, [normalize name_or_symbol])
    | none =>
      (.err (resolution_error_message (normalize name_or_symbol)),
       [normalize name_or_symbol])

/-! ### The `/predict` route -/

/-- Which collaborators a `/predict` request touched: whether the resolver
ran, how many market-data accesses happened (the resolver's history query
plus the route's own `ticker.info` access), and how many times the prediction
pipeline ran. -/
structure CallTrace where
  resolver : Bool
  market : Nat
  pipeline : Nat
deriving DecidableEq

/-- The local `user_input = data.get('stock', '').strip()` of `predict_stock`:
the trimmed `stock` field of the optional JSON body (`request.json or {}`). -/
def user_input (body : Option (List (String × String))) : String :=
  pyStrip (((body.getD []).lookup "stock").getD "")

/-- The `/predict` handler `predict_stock`, up to response assembly: the JSON
body is an optional object whose string fields are the association list; the
`ticker.info` access and `run_full_pipeline` are oracles that either succeed
or raise.  The summary/JSON formatting of the success path is outside the
specified core and is represented by returning the resolved symbol as the
200 body. -/
def predict_stock (svc : MarketService) (info : String → Except String Unit)
    (pipeline : String → Except String Unit)
    (body : Option (List (String × String))) : (Nat × String) × CallTrace :=
  if user_input body = "" then
    ((400, "Stock input required"), ⟨false, 0, 0⟩)
  else
    match (get_stock_symbolT svc (user_input body)).1 with
    | .err e =>
      ((500, e), ⟨true, (get_stock_symbolT svc (user_input body)).2.length, 0⟩)
    | .ok symbol =>
      match info symbol with
      | .error e =>
        ((500, e), ⟨true, (get_stock_symbolT svc (user_input body)).2.length + 1, 0⟩)
      | .ok _ =>
        match pipeline symbol with
        | .error e =>
          ((500, e), ⟨true, (get_stock_symbolT svc (user_input body)).2.length + 1, 1⟩)
        | .ok _ =>
          ((200, symbol), ⟨true, (get_stock_symbolT svc (user_input body)).2.length + 1, 1⟩)

/-- `msg` contains `pat` as a contiguous substring. -/
def mentionsText (msg pat : String) : Prop := pat.data <:+: msg.data

instance (msg pat : String) : Decidable (mentionsText msg pat) :=
  inferInstanceAs (Decidable (pat.data <:+: msg.data))

/-! ### Character-level facts -/

theorem char_toNat_ofNat (n : Nat) (h : n < 55296) : (Char.ofNat n).toNat = n := by
  have hv : n.isValidChar := Or.inl h
  rw [Char.ofNat, dif_pos hv]
  rfl

theorem char_eq_of_toNat_eq {a b : Char} (h : a.toNat = b.toNat) : a = b := by
  rw [← Char.ofNat_toNat a, ← Char.ofNat_toNat b, h]

theorem toNat_toUpper (c : Char) :
    c.toUpper.toNat =
      if 97 ≤ c.toNat ∧ c.toNat ≤ 122 then c.toNat - 32 else c.toNat := by
  have hdef : c.toUpper
      = if c.toNat ≥ 97 ∧ c.toNat ≤ 122 then Char.ofNat (c.toNat - 32) else c := rfl
  rw [hdef]
  by_cases hr : 97 ≤ c.toNat ∧ c.toNat ≤ 122
  · rw [if_pos (⟨hr.1, hr.2⟩ : c.toNat ≥ 97 ∧ c.toNat ≤ 122), if_pos hr]
    exact char_toNat_ofNat (c.toNat - 32) (by omega)
  · rw [if_neg (fun hc => hr ⟨hc.1, hc.2⟩), if_neg hr]

theorem toUpper_idem (c : Char) : c.toUpper.toUpper = c.toUpper := by
  apply char_eq_of_toNat_eq
  rw [toNat_toUpper c.toUpper, toNat_toUpper c]
  split
  · next h => rw [if_neg (by omega)]
  · next h => rfl

theorem isPySpace_toUpper (c : Char) : isPySpace c.toUpper = isPySpace c := by
  unfold isPySpace
  have h := toNat_toUpper c
  by_cases hr : 97 ≤ c.toNat ∧ c.toNat ≤ 122
  · rw [if_pos hr] at h
    rw [h]
    have h1 : ¬ PySpaceProp (c.toNat - 32) := by unfold PySpaceProp; omega
    have h2 : ¬ PySpaceProp c.toNat := by unfold PySpaceProp; omega
    simp [h1, h2]
  · rw [if_neg hr] at h
    rw [h]

/-! ### Strip/upper algebra -/

theorem dropWhile_idem {α : Type} (p : α → Bool) (l : List α) :
    List.dropWhile p (List.dropWhile p l) = List.dropWhile p l := by
  induction l with
  | nil => rfl
  | cons a t ih =>
    rw [List.dropWhile_cons]
    split
    · exact ih
    · next h =>
      rw [List.dropWhile_cons, if_neg h]

theorem dropWhile_of_prefix {α : Type} {p : α → Bool} {l b : List α}
    (hl : List.dropWhile p l = l) (hb : b <+: l) :
    List.dropWhile p b = b := by
  cases b with
  | nil => rfl
  | cons x b2 =>
    obtain ⟨t, ht⟩ := hb
    rw [List.dropWhile_cons]
    split
    · next hpx =>
      exfalso
      rw [← ht, List.cons_append, List.dropWhile_cons, if_pos hpx] at hl
      have hlen := congrArg List.length hl
      have hle : (List.dropWhile p (b2 ++ t)).length ≤ (b2 ++ t).length :=
        (List.dropWhile_suffix p).length_le
      simp at hlen hle
      omega
    · rfl

theorem dropWhile_stripWith (p : Char → Bool) (l : List Char) :
    List.dropWhile p (stripWith p l) = stripWith p l := by
  have hsuf : List.dropWhile p (l.dropWhile p).reverse <:+ (l.dropWhile p).reverse :=
    List.dropWhile_suffix p
  have hpre := List.reverse_prefix.mpr hsuf
  rw [List.reverse_reverse] at hpre
  exact dropWhile_of_prefix (dropWhile_idem p l) hpre

theorem stripWith_idem (p : Char → Bool) (l : List Char) :
    stripWith p (stripWith p l) = stripWith p l := by
  show ((List.dropWhile p (stripWith p l)).reverse.dropWhile p).reverse
      = stripWith p l
  rw [dropWhile_stripWith]
  show ((stripWith p l).reverse.dropWhile p).reverse = stripWith p l
  unfold stripWith
  rw [List.reverse_reverse, dropWhile_idem]

theorem dropWhile_map_same (f : Char → Char) (p : Char → Bool)
    (hp : ∀ a, p (f a) = p a) (m : List Char) :
    List.dropWhile p (m.map f) = (List.dropWhile p m).map f := by
  rw [List.dropWhile_map]
  have hfe : (p ∘ f) = p := funext hp
  rw [hfe]

theorem stripWith_map (f : Char → Char) (p : Char → Bool)
    (hp : ∀ a, p (f a) = p a) (l : List Char) :
    stripWith p (l.map f) = (stripWith p l).map f := by
  unfold stripWith
  rw [dropWhile_map_same f p hp, ← List.map_reverse,
    dropWhile_map_same f p hp, ← List.map_reverse]

theorem pyUpper_normalize (s : String) : pyUpper (normalize s) = normalize s := by
  unfold normalize pyUpper pyStrip
  congr 1
  show (List.map Char.toUpper (stripWith isPySpace s.data)).map Char.toUpper
      = List.map Char.toUpper (stripWith isPySpace s.data)
  rw [List.map_map]
  have hfe : (Char.toUpper ∘ Char.toUpper) = Char.toUpper :=
    funext toUpper_idem
  rw [hfe]

theorem pyStrip_normalize (s : String) : pyStrip (normalize s) = normalize s := by
  unfold normalize pyUpper pyStrip
  congr 1
  show stripWith isPySpace ((stripWith isPySpace s.data).map Char.toUpper)
      = List.map Char.toUpper (stripWith isPySpace s.data)
  rw [stripWith_map Char.toUpper isPySpace isPySpace_toUpper,
    stripWith_idem]

/-! ### Lookup and error-message facts -/

theorem lookup_mem_snd {α β : Type} [BEq α] {l : List (α × β)} {k : α} {v : β}
    (h : List.lookup k l = some v) : v ∈ l.map Prod.snd := by
  induction l with
  | nil => simp [List.lookup] at h
  | cons p t ih =>
    obtain ⟨a, b⟩ := p
    rw [List.lookup_cons] at h
    cases hk : (k == a) with
    | true =>
      rw [hk] at h
      simp at h
      simp [h]
    | false =>
      rw [hk] at h
      simp at h ⊢
      exact Or.inr (by simpa using ih h)

theorem data_resolution_error (c : String) :
    (resolution_error_message c).data = errPre.data ++ (c.data ++ errSuf.data) := by
  unfold resolution_error_message
  rw [String.data_append, String.data_append, List.append_assoc]

theorem mentions_candidate (c : String) :
    mentionsText (resolution_error_message c) c := by
  unfold mentionsText
  rw [data_resolution_error]
  exact List.infix_append' _ _ _

theorem errSuf_inside (c : String) : errSuf.data <:+: (resolution_error_message c).data := by
  rw [data_resolution_error]
  refine ⟨errPre.data ++ c.data, [], ?_⟩
  simp

theorem mentions_of_errSuf (c : String) {pat : String}
    (h : pat.data <:+: errSuf.data) :
    mentionsText (resolution_error_message c) pat :=
  h.trans (errSuf_inside c)

theorem alias_values_good :
    ∀ v ∈ common_mappings.map Prod.snd,
      pyUpper v = v ∧ pyStrip v = v ∧
      v ∈ (["AAPL", "GOOGL", "MSFT", "AMZN", "TSLA",
            "META", "NFLX", "NVDA", "ADBE", "CRM"] : List String) := by
  decide

theorem alias_values_ne_empty : ∀ v ∈ common_mappings.map Prod.snd, v ≠ "" := by
  decide

/-! ### The claims -/

/-- C1: if trimming and uppercasing the input yields a candidate for which
the one-day history query succeeds with at least one data point, resolution
succeeds and returns exactly that normalized candidate. -/
theorem C1_direct_resolution (svc : MarketService) (s : String)
    (h : svc (pyUpper (pyStrip s)) = .history false) :
    get_stock_symbol svc s = .ok (pyUpper (pyStrip s)) := by
  unfold get_stock_symbol normalize
  rw [h]

theorem C1_witness :
    (fun _ : String => HistoryResult.history false) (pyUpper (pyStrip " msft "))
        = .history false ∧
    get_stock_symbol (fun _ => .history false) " msft "
        = .ok (pyUpper (pyStrip " msft ")) :=
  ⟨rfl, C1_direct_resolution (fun _ => .history false) " msft " rfl⟩

/-- C2: if the normalized input is a key of the alias table and the service
does not recognize it directly (empty history or exception), resolution
returns the mapped value. -/
theorem C2_alias_fallback (svc : MarketService) (s v : String)
    (h1 : svc (pyUpper (pyStrip s)) ≠ .history false)
    (h2 : common_mappings.lookup (pyUpper (pyStrip s)) = some v) :
    get_stock_symbol svc s = .ok v := by
  unfold get_stock_symbol normalize
  cases hs : svc (pyUpper (pyStrip s)) with
  | history e =>
    cases e with
    | false => exact absurd hs h1
    | true => rw [h2]
  | exn => rw [h2]

theorem C2_witness :
    ((fun _ : String => HistoryResult.exn) (pyUpper (pyStrip "apple"))
        ≠ .history false) ∧
    common_mappings.lookup (pyUpper (pyStrip "apple")) = some "AAPL" ∧
    get_stock_symbol (fun _ => .exn) "apple" = .ok "AAPL" :=
  ⟨by decide, by decide,
    C2_alias_fallback (fun _ => .exn) "apple" "AAPL" (by decide) (by decide)⟩

/-- C3: when the normalized input is both directly recognized and an alias
key, the direct match wins: the normalized form itself is returned. -/
theorem C3_direct_priority (svc : MarketService) (s : String)
    (h1 : svc (pyUpper (pyStrip s)) = .history false)
    (h2 : (common_mappings.lookup (pyUpper (pyStrip s))).isSome = true) :
    get_stock_symbol svc s = .ok (pyUpper (pyStrip s)) := by
  unfold get_stock_symbol normalize
  rw [h1]

theorem C3_witness :
    (fun _ : String => HistoryResult.history false) (pyUpper (pyStrip "meta"))
        = .history false ∧
    (common_mappings.lookup (pyUpper (pyStrip "meta"))).isSome = true ∧
    get_stock_symbol (fun _ => .history false) "meta"
        = .ok (pyUpper (pyStrip "meta")) :=
  ⟨rfl, by decide,
    C3_direct_priority (fun _ => .history false) "meta" rfl (by decide)⟩

/-- C4: an exception from the market-data service during the direct-lookup
step is caught locally; resolution then behaves exactly as if the query had
returned an empty history, for every input. -/
theorem C4_exception_recovered (svc1 svc2 : MarketService) (s : String)
    (h1 : svc1 (pyUpper (pyStrip s)) = .exn)
    (h2 : svc2 (pyUpper (pyStrip s)) = .history true) :
    get_stock_symbol svc1 s = get_stock_symbol svc2 s := by
  unfold get_stock_symbol normalize
  rw [h1, h2]

theorem C4_witness :
    (fun _ : String => HistoryResult.exn) (pyUpper (pyStrip "apple")) = .exn ∧
    (fun _ : String => HistoryResult.history true) (pyUpper (pyStrip "apple"))
        = .history true ∧
    get_stock_symbol (fun _ => .exn) "apple"
        = get_stock_symbol (fun _ => .history true) "apple" :=
  ⟨rfl, rfl,
    C4_exception_recovered (fun _ => .exn) (fun _ => .history true) "apple"
      rfl rfl⟩

/-- C5: when the normalized input is neither directly recognized nor an alias
key, resolution fails with the single typed error whose message mentions the
(normalized) input text and suggests example valid symbols. -/
theorem C5_failure_message (svc : MarketService) (s : String)
    (h1 : svc (pyUpper (pyStrip s)) ≠ .history false)
    (h2 : common_mappings.lookup (pyUpper (pyStrip s)) = none) :
    get_stock_symbol svc s
        = .err (resolution_error_message (pyUpper (pyStrip s))) ∧
    mentionsText (resolution_error_message (pyUpper (pyStrip s)))
        (pyUpper (pyStrip s)) ∧
    mentionsText (resolution_error_message (pyUpper (pyStrip s))) "AAPL" ∧
    mentionsText (resolution_error_message (pyUpper (pyStrip s))) "GOOGL" := by
  refine ⟨?_, mentions_candidate _, mentions_of_errSuf _ (by decide),
    mentions_of_errSuf _ (by decide)⟩
  unfold get_stock_symbol normalize
  cases hs : svc (pyUpper (pyStrip s)) with
  | history e =>
    cases e with
    | false => exact absurd hs h1
    | true => rw [h2]
  | exn => rw [h2]

theorem C5_witness :
    ((fun _ : String => HistoryResult.history true)
        (pyUpper (pyStrip "Nonexistent Corp")) ≠ .history false) ∧
    common_mappings.lookup (pyUpper (pyStrip "Nonexistent Corp")) = none ∧
    (get_stock_symbol (fun _ => .history true) "Nonexistent Corp"
        = .err (resolution_error_message (pyUpper (pyStrip "Nonexistent Corp"))) ∧
      mentionsText
        (resolution_error_message (pyUpper (pyStrip "Nonexistent Corp")))
        (pyUpper (pyStrip "Nonexistent Corp")) ∧
      mentionsText
        (resolution_error_message (pyUpper (pyStrip "Nonexistent Corp")))
        "AAPL" ∧
      mentionsText
        (resolution_error_message (pyUpper (pyStrip "Nonexistent Corp")))
        "GOOGL") :=
  ⟨by decide, by decide,
    C5_failure_message (fun _ => .history true) "Nonexistent Corp"
      (by decide) (by decide)⟩

/-- C6: resolution depends only on the trimmed, uppercased form of the input:
two inputs with the same normalization resolve identically against the same
service. -/
theorem C6_normalization_invariance (svc : MarketService) (s t : String)
    (h : pyUpper (pyStrip s) = pyUpper (pyStrip t)) :
    get_stock_symbol svc s = get_stock_symbol svc t := by
  unfold get_stock_symbol normalize
  rw [h]

theorem C6_witness :
    pyUpper (pyStrip " aapl  ") = pyUpper (pyStrip "Aapl") ∧
    get_stock_symbol (fun _ => .history false) " aapl  "
        = get_stock_symbol (fun _ => .history false) "Aapl" :=
  ⟨by decide,
    C6_normalization_invariance (fun _ => .history false) " aapl  " "Aapl"
      (by decide)⟩

/-- C7 (as stated) is false: the alias path returns the mapped value without
re-validating it against the market-data service, so with a service that
recognizes nothing, input "APPLE" yields "AAPL", a symbol the service does
not accept. -/
theorem C7_counterexample :
    ¬ (∀ (svc : MarketService) (s : String),
        (∃ sym, get_stock_symbol svc s = .ok sym ∧ sym ≠ "" ∧
          svc sym = .history false) ∨
        (∃ m, get_stock_symbol svc s = .err m)) := by
  intro hclaim
  rcases hclaim (fun _ => .history true) "APPLE" with ⟨sym, hok, hne, hacc⟩ | ⟨m, hm⟩
  · simp at hacc
  · rw [show get_stock_symbol (fun _ => HistoryResult.history true) "APPLE"
        = .ok "AAPL" from by decide] at hm
    exact Resolution.noConfusion hm

/-- C7 (amended): for every input, the resolver either returns the normalized
candidate, which the market-data service accepted with non-empty history, or
returns one of the (non-empty) alias-table values, or fails explicitly with
the typed resolution error for the normalized input; no other result is
possible. -/
theorem C7_amended_trichotomy (svc : MarketService) (s : String) :
    (svc (pyUpper (pyStrip s)) = .history false ∧
      get_stock_symbol svc s = .ok (pyUpper (pyStrip s))) ∨
    (∃ v, v ∈ common_mappings.map Prod.snd ∧ v ≠ "" ∧
      get_stock_symbol svc s = .ok v) ∨
    get_stock_symbol svc s
        = .err (resolution_error_message (pyUpper (pyStrip s))) := by
  unfold get_stock_symbol normalize
  cases hs : svc (pyUpper (pyStrip s)) with
  | history e =>
    cases e with
    | false => exact Or.inl ⟨rfl, rfl⟩
    | true =>
      cases hl : common_mappings.lookup (pyUpper (pyStrip s)) with
      | some v =>
        exact Or.inr (Or.inl ⟨v, lookup_mem_snd hl,
          alias_values_ne_empty v (lookup_mem_snd hl), rfl⟩)
      | none => exact Or.inr (Or.inr rfl)
  | exn =>
    cases hl : common_mappings.lookup (pyUpper (pyStrip s)) with
    | some v =>
      exact Or.inr (Or.inl ⟨v, lookup_mem_snd hl,
        alias_values_ne_empty v (lookup_mem_snd hl), rfl⟩)
    | none => exact Or.inr (Or.inr rfl)

/-- C8: a single invocation of the resolver performs exactly one outbound
query to the market-data service (the one-day history call on the normalized
candidate), on every path; the instrumented resolver agrees with the plain
one. -/
theorem C8_single_network_call (svc : MarketService) (s : String) :
    (get_stock_symbolT svc s).1 = get_stock_symbol svc s ∧
    ((get_stock_symbolT svc s).2).length ≤ 1 := by
  unfold get_stock_symbolT get_stock_symbol
  cases hs : svc (normalize s) with
  | history e =>
    cases e with
    | false => exact ⟨rfl, Nat.le_refl 1⟩
    | true =>
      cases hl : common_mappings.lookup (normalize s) with
      | some v => exact ⟨rfl, Nat.le_refl 1⟩
      | none => exact ⟨rfl, Nat.le_refl 1⟩
  | exn =>
    cases hl : common_mappings.lookup (normalize s) with
    | some v => exact ⟨rfl, Nat.le_refl 1⟩
    | none => exact ⟨rfl, Nat.le_refl 1⟩

/-- C9: a successfully returned symbol is uppercase, carries no surrounding
whitespace, and is either the normalized input or one of the ten inline alias
values. -/
theorem C9_result_shape (svc : MarketService) (s sym : String)
    (h : get_stock_symbol svc s = .ok sym) :
    pyUpper sym = sym ∧ pyStrip sym = sym ∧
    (sym = pyUpper (pyStrip s) ∨
      sym ∈ (["AAPL", "GOOGL", "MSFT", "AMZN", "TSLA",
              "META", "NFLX", "NVDA", "ADBE", "CRM"] : List String)) := by
  unfold get_stock_symbol at h
  cases hs : svc (normalize s) with
  | history e =>
    rw [hs] at h
    cases e with
    | false =>
      simp at h
      subst h
      exact ⟨pyUpper_normalize s, pyStrip_normalize s, Or.inl rfl⟩
    | true =>
      cases hl : common_mappings.lookup (normalize s) with
      | some v =>
        rw [hl] at h
        simp at h
        subst h
        have hmem := lookup_mem_snd hl
        obtain ⟨hu, hstr, hlist⟩ := alias_values_good v hmem
        exact ⟨hu, hstr, Or.inr hlist⟩
      | none =>
        rw [hl] at h
        exact Resolution.noConfusion h
  | exn =>
    rw [hs] at h
    cases hl : common_mappings.lookup (normalize s) with
    | some v =>
      rw [hl] at h
      simp at h
      subst h
      have hmem := lookup_mem_snd hl
      obtain ⟨hu, hstr, hlist⟩ := alias_values_good v hmem
      exact ⟨hu, hstr, Or.inr hlist⟩
    | none =>
      rw [hl] at h
      exact Resolution.noConfusion h

theorem C9_witness :
    get_stock_symbol (fun _ => HistoryResult.exn) "apple" = .ok "AAPL" ∧
    (pyUpper "AAPL" = "AAPL" ∧ pyStrip "AAPL" = "AAPL" ∧
      ("AAPL" = pyUpper (pyStrip "apple") ∨
        "AAPL" ∈ (["AAPL", "GOOGL", "MSFT", "AMZN", "TSLA",
                   "META", "NFLX", "NVDA", "ADBE", "CRM"] : List String))) :=
  ⟨by decide, C9_result_shape (fun _ => .exn) "apple" "AAPL" (by decide)⟩

/-- C10: a `/predict` request whose JSON body is missing, lacks a `stock`
field, or whose `stock` value is empty after trimming, is answered 400 with
the "Stock input required" error, and neither the resolver, nor the
market-data service, nor the prediction pipeline runs. -/
theorem C10_missing_stock_guard (svc : MarketService)
    (info : String → Except String Unit) (pipeline : String → Except String Unit)
    (body : Option (List (String × String)))
    (h : body = none ∨ ∃ kvs, body = some kvs ∧
        (kvs.lookup "stock" = none ∨
          ∃ v, kvs.lookup "stock" = some v ∧ pyStrip v = "")) :
    predict_stock svc info pipeline body
        = ((400, "Stock input required"), ⟨false, 0, 0⟩) := by
  have hempty : user_input body = "" := by
    unfold user_input
    rcases h with rfl | ⟨kvs, rfl, hk⟩
    · rfl
    · rcases hk with hnone | ⟨v, hv, hstrip⟩
      · simp [hnone]
        rfl
      · simp [hv]
        exact hstrip
  unfold predict_stock
  rw [hempty]
  simp

theorem C10_witness :
    ((none : Option (List (String × String))) = none ∨
      ∃ kvs, (none : Option (List (String × String))) = some kvs ∧
        (kvs.lookup "stock" = none ∨
          ∃ v, kvs.lookup "stock" = some v ∧ pyStrip v = "")) ∧
    predict_stock (fun _ => .exn) (fun _ => .ok ()) (fun _ => .ok ()) none
        = ((400, "Stock input required"), ⟨false, 0, 0⟩) :=
  ⟨Or.inl rfl,
    C10_missing_stock_guard (fun _ => .exn) (fun _ => .ok ()) (fun _ => .ok ())
      none (Or.inl rfl)⟩

end FinanceBackend
